import Mathlib

/-!
# Verification of the planning-center-mcp attendance pipeline

Shallow embedding of the repository's attendance-aggregation code paths:

* `src/working.py` — `RateLimiter`, `make_sync_request`, and the
  named-service max-select aggregation `get_total_attendance_details_for_date`;
* `src/simple.py` — the full-detail aggregation `build_output` together with
  its pager `fetch_event_times_with_headcounts`;
* `src/client.py` — the sliding-window rate limit (same policy as
  `working.py`'s `RateLimiter`).

External effects (HTTP transport, wall-clock time, JSON decoding) are passed
in as explicit data: a fetch becomes a function argument producing the decoded
records, `time.time()` becomes a rational `now` argument, and Python
exceptions become `Except String` results.  JSON values that the code reads
defensively are modelled field-by-field: a headcount's `total` attribute is
`TVal` (absent key, JSON `null`, or a number), and every nested
`relationships.x.data.id` access collapses to the `Option String` it produces.
-/

namespace PlanningCenter

/-- A headcount's `total` attribute as found in the JSON: the key may be
absent, present but `null`, or a number.  Totals are church attendance
counts, which the data model constrains to be non-negative, so the numeric
case carries a `Nat`. -/
inductive TVal where
  | missing
  | null
  | num (n : Nat)
deriving DecidableEq, Repr

/-- One record of a compound document's `included` array, carrying the fields
the aggregation code reads: `type`, `id`, `attributes.name`,
`attributes.total`, and the resolved `relationships.attendance_type.data.id`
and `relationships.event_time.data.id` (each `none` whenever any step of the
defensive nested access in the source yields nothing). -/
structure Inc where
  rtype : String
  id : String
  attrName : Option String
  attrTotal : TVal
  relAttendanceTypeId : Option String
  relEventTimeId : Option String
deriving DecidableEq, Repr

/-- Lookup in an association list with Python-dict semantics: a later binding
of the same key overwrites an earlier one. -/
def dictGet {α : Type} (m : List (String × α)) (k : String) : Option α :=
  m.foldl (fun acc p => if p.1 = k then some p.2 else acc) none

/-! ## `working.py`: named-service max-select aggregation -/

/-- The hard-coded `SERVICE_NAMES` list of `working.py`. -/
def SERVICE_NAMES : List String :=
  ["EH 10:15am", "EH 12:15pm", "EH 8:15am", "EW 11:00am", "EW 9:00am"]

/-- `working.py`'s attendance-type index: the dict comprehension
`{item["id"]: item["attributes"]["name"] for item in included if
item.get("type") == "AttendanceType"}`.  The bare `["name"]` access raises
`KeyError` when the attribute is missing, modelled as `Except.error`. -/
def buildAttendanceTypes (included : List Inc) : Except String (List (String × String)) :=
  included.foldl
    (fun acc item =>
      match acc with
      | .error e => .error e
      | .ok m =>
        if item.rtype = "AttendanceType" then
          match item.attrName with
          | some n => .ok (m ++ [(item.id, n)])
          | none => .error "KeyError: name"
        else .ok m)
    (.ok [])

/-- `att_name = attendance_types.get(str(atid)) if atid else None`: a falsy
id (absent or empty) resolves to no name; otherwise the index is consulted. -/
def resolveAttName (types : List (String × String)) (atid : Option String) : Option String :=
  match atid with
  | none => none
  | some s => if s = "" then none else dictGet types s

/-- `hc.get("attributes", {}).get("total", 0) or 0`: an absent or null total
is read as 0. -/
def totalOrZero : TVal → Nat
  | .missing => 0
  | .null => 0
  | .num n => n

/-- The inner loop of `working.py`'s step 4: starting from `max_total = 0`,
replace it by a headcount's total whenever that headcount's resolved
attendance-type name equals the service name and its total is strictly
larger. -/
def maxForService (types : List (String × String)) (headcounts : List Inc)
    (serviceName : String) : Nat :=
  headcounts.foldl
    (fun maxTotal hc =>
      let attName := resolveAttName types hc.relAttendanceTypeId
      let total := totalOrZero hc.attrTotal
      if attName = some serviceName ∧ maxTotal < total then total else maxTotal)
    0

/-- The dictionaries returned by `get_total_attendance_details_for_date`,
one constructor per `return` site; `keys` below records each dict's keys. -/
inductive TotalAttendanceResult where
  | invalidDate (msg : String)
  | noPeriod (date : String) (msg : String)
  | ok (date : String) (services : List (String × Nat)) (grandTotal : Nat)
  | failed (msg : String)
deriving DecidableEq, Repr

/-- The keys of the Python dict each result constructor stands for. -/
def TotalAttendanceResult.keys : TotalAttendanceResult → List String
  | .invalidDate _ => ["error"]
  | .noPeriod _ _ => ["date", "error"]
  | .ok _ _ _ => ["date", "services", "grand_total"]
  | .failed _ => ["error"]

/-- `working.py`'s `get_total_attendance_details_for_date`, after the two
HTTP fetches are abstracted: `dateParses` stands for the `strptime` check,
`periods` is the `data` array of the event-period query (each element the
period's `.get("id")`), and `timesFetch` maps the chosen period id to the
`included` array of the event-times query.  The services dict is built by
inserting each hard-coded service name in order (the names are distinct, so
dict insertion order is the list order), and the grand total accumulates the
per-service maxima. -/
def get_total_attendance_details_for_date (date : String) (dateParses : Bool)
    (periods : List (Option String)) (timesFetch : Option String → List Inc) :
    TotalAttendanceResult :=
  if !dateParses then
    .invalidDate "Invalid date format. Use YYYY-MM-DD."
  else
    match periods with
    | [] => .noPeriod date ("No event_period (session) found for " ++ date ++ ".")
    | periodId :: _ =>
      let included := timesFetch periodId
      match buildAttendanceTypes included with
      | .error e => .failed ("Failed to get attendance for " ++ date ++ ": " ++ e)
      | .ok types =>
        let headcounts := included.filter (fun i => i.rtype = "Headcount")
        let counted := SERVICE_NAMES.foldl
          (fun acc name => acc ++ [(name, maxForService types headcounts name)]) []
        let grandTotal := SERVICE_NAMES.foldl
          (fun g name => g + maxForService types headcounts name) 0
        .ok date counted grandTotal

/-- The spec's reading of the per-label value: the maximum total among the
headcounts whose resolved attendance-type name equals the label, `0` when no
headcount matches. -/
def specServiceMax (types : List (String × String)) (headcounts : List Inc)
    (serviceName : String) : Nat :=
  (((headcounts.filter
      (fun hc => resolveAttName types hc.relAttendanceTypeId = some serviceName)).map
        (fun hc => totalOrZero hc.attrTotal)).foldr max 0)

lemma maxForService_go (types : List (String × String)) (serviceName : String) :
    ∀ (hcs : List Inc) (a : Nat),
      hcs.foldl
        (fun maxTotal hc =>
          let attName := resolveAttName types hc.relAttendanceTypeId
          let total := totalOrZero hc.attrTotal
          if attName = some serviceName ∧ maxTotal < total then total else maxTotal)
        a
      = max a (specServiceMax types hcs serviceName) := by
  intro hcs
  induction hcs with
  | nil =>
    intro a
    simp [specServiceMax]
  | cons hc t ih =>
    intro a
    by_cases hmatch : resolveAttName types hc.relAttendanceTypeId = some serviceName
    · have hstep :
          (if resolveAttName types hc.relAttendanceTypeId = some serviceName ∧
              a < totalOrZero hc.attrTotal then totalOrZero hc.attrTotal else a)
            = max a (totalOrZero hc.attrTotal) := by
        rcases Nat.lt_or_ge a (totalOrZero hc.attrTotal) with hlt | hge
        · simp [hmatch, hlt, Nat.max_eq_right (Nat.le_of_lt hlt)]
        · have : ¬ a < totalOrZero hc.attrTotal := Nat.not_lt.mpr hge
          simp [hmatch, this, Nat.max_eq_left hge]
      simp only [List.foldl_cons, hstep, ih]
      have hspec : specServiceMax types (hc :: t) serviceName
          = max (totalOrZero hc.attrTotal) (specServiceMax types t serviceName) := by
        simp [specServiceMax, List.filter_cons, hmatch]
      rw [hspec, Nat.max_assoc]
    · have hstep :
          (if resolveAttName types hc.relAttendanceTypeId = some serviceName ∧
              a < totalOrZero hc.attrTotal then totalOrZero hc.attrTotal else a) = a := by
        simp [hmatch]
      have hspec : specServiceMax types (hc :: t) serviceName
          = specServiceMax types t serviceName := by
        simp [specServiceMax, List.filter_cons, hmatch]
      simp only [List.foldl_cons, hstep, ih, hspec]

/-- Per-service value computed by the source loop equals the spec's maximum. -/
lemma maxForService_eq_spec (types : List (String × String)) (hcs : List Inc)
    (serviceName : String) :
    maxForService types hcs serviceName = specServiceMax types hcs serviceName := by
  have := maxForService_go types serviceName hcs 0
  simpa [maxForService] using this

lemma counted_fold_eq_map (types : List (String × String)) (hcs : List Inc) :
    ∀ (names : List String) (acc : List (String × Nat)),
      names.foldl (fun acc name => acc ++ [(name, maxForService types hcs name)]) acc
        = acc ++ names.map (fun name => (name, maxForService types hcs name)) := by
  intro names
  induction names with
  | nil => intro acc; simp
  | cons n t ih => intro acc; simp [ih]

lemma grand_fold_eq_sum (types : List (String × String)) (hcs : List Inc) :
    ∀ (names : List String) (g : Nat),
      names.foldl (fun g name => g + maxForService types hcs name) g
        = g + (names.map (fun name => maxForService types hcs name)).sum := by
  intro names
  induction names with
  | nil => intro g; simp
  | cons n t ih => intro g; simp [ih]; ring

/-! ## `simple.py`: full-detail aggregation `build_output` -/

/-- An `event_times` data record as `build_output` reads it: its `.get("id")`
and its `attributes.get("starts_at", "")` (kept as the raw optional field). -/
structure ET where
  id : Option String
  attrStartsAt : Option String
deriving DecidableEq, Repr

/-- `attrs.get("total", 0)` in `simple.py`: an absent key defaults to the
integer 0, but a JSON `null` stays `None`. -/
def hcTotalOpt : TVal → Option Nat
  | .missing => some 0
  | .null => none
  | .num n => some n

/-- The flattened `hc_obj` dict of `build_output`. -/
structure HcObj where
  id : String
  total : Option Nat
  attendance_type_id : Option String
  attendance_type_name : String
  event_time_id : Option String
deriving DecidableEq, Repr

/-- `simple.py`'s attendance-type index: id to attributes (of which only
`name` is ever read), later duplicates overwriting earlier ones as in the
dict comprehension. -/
def indexAttendanceTypes (included : List Inc) : List (String × Option String) :=
  (included.filter (fun i => i.rtype = "AttendanceType")).map (fun i => (i.id, i.attrName))

/-- `attendance_types.get(at_id, {}).get("name", "") if at_id else ""`. -/
def atNameOf (idx : List (String × Option String)) (atId : Option String) : String :=
  match atId with
  | none => ""
  | some s =>
    if s = "" then ""
    else
      match dictGet idx s with
      | none => ""
      | some n => n.getD ""

/-- The `hc_obj` built for one `Headcount` included record. -/
def mkHcObj (idx : List (String × Option String)) (i : Inc) : HcObj :=
  { id := i.id
    total := hcTotalOpt i.attrTotal
    attendance_type_id := i.relAttendanceTypeId
    attendance_type_name := atNameOf idx i.relAttendanceTypeId
    event_time_id := i.relEventTimeId }

/-- The `headcounts_all` list of `build_output`: one `hc_obj` per `Headcount`
record of the `included` array, in encounter order. -/
def hcsAllOf (included : List Inc) : List HcObj :=
  (included.filter (fun i => i.rtype = "Headcount")).map
    (mkHcObj (indexAttendanceTypes included))

/-- `headcounts_by_event_time.setdefault(et_id, []).append(hc_obj)`: append
to the existing entry for the key, or add a fresh singleton entry at the
end. -/
def insertAppend (m : List (String × List HcObj)) (k : String) (hc : HcObj) :
    List (String × List HcObj) :=
  match m with
  | [] => [(k, [hc])]
  | (k', l) :: rest =>
    if k' = k then (k', l ++ [hc]) :: rest else (k', l) :: insertAppend rest k hc

/-- One step of the `headcounts_by_event_time` grouping: only headcounts
with a truthy `event_time_id` are grouped. -/
def groupStep (m : List (String × List HcObj)) (hc : HcObj) :
    List (String × List HcObj) :=
  match hc.event_time_id with
  | none => m
  | some s => if s = "" then m else insertAppend m s hc

/-- The `headcounts_by_event_time` grouping. -/
def groupByEventTime (hcs : List HcObj) : List (String × List HcObj) :=
  hcs.foldl groupStep []

/-- One element of `event_times_full`: the event time's id and attributes
together with the headcounts attached to it. -/
structure ETFull where
  id : Option String
  starts_at : String
  headcounts : List HcObj
deriving DecidableEq, Repr

/-- Attach grouped headcounts to each event time; a missing id looks up
nothing (`dict.get` on a key that cannot be present). -/
def eventTimesFull (ets : List ET) (groups : List (String × List HcObj)) :
    List ETFull :=
  ets.map (fun et =>
    { id := et.id
      starts_at := et.attrStartsAt.getD ""
      headcounts :=
        match et.id with
        | none => []
        | some s => (dictGet groups s).getD [] })

/-- One addition step of Python's `sum(...)` over headcount totals: adding a
`None` raises a `TypeError`, modelled as `Except.error`. -/
def pyStep (acc : Except String Nat) (t : Option Nat) : Except String Nat :=
  match acc, t with
  | .error e, _ => .error e
  | .ok s, some n => .ok (s + n)
  | .ok _, none => .error "TypeError: unsupported operand type(s) for +: int and NoneType"

/-- Python's `sum(...)` over the headcount totals. -/
def pySumTotals (l : List (Option Nat)) : Except String Nat :=
  l.foldl pyStep (.ok 0)

/-- One element of `totals.by_service_time`. -/
structure ServiceTimeTotal where
  event_time_id : Option String
  starts_at : String
  total : Nat
deriving DecidableEq, Repr

/-- One iteration of the `totals_by_service_time` loop. -/
def bstStep (acc : Except String (List ServiceTimeTotal)) (et : ETFull) :
    Except String (List ServiceTimeTotal) :=
  match acc with
  | .error e => .error e
  | .ok l =>
    match pySumTotals (et.headcounts.map (fun hc => hc.total)) with
    | .error e => .error e
    | .ok n => .ok (l ++ [⟨et.id, et.starts_at, n⟩])

/-- The `totals_by_service_time` loop: each event time's subtotal is the
Python sum of its attached headcounts' totals. -/
def totalsByServiceTime (etf : List ETFull) : Except String (List ServiceTimeTotal) :=
  etf.foldl bstStep (.ok [])

/-- `by_attendance[key] = by_attendance.get(key, 0) + v`: update the existing
binding in place or append a new one, preserving dict insertion order. -/
def bump (m : List (String × Nat)) (k : String) (v : Nat) : List (String × Nat) :=
  match m with
  | [] => [(k, v)]
  | (k', v') :: rest =>
    if k' = k then (k', v' + v) :: rest else (k', v') :: bump rest k v

/-- `key = hc.get("attendance_type_id") or "unknown"`: a falsy id (absent or
empty) buckets under the literal key "unknown". -/
def attKeyOf (atId : Option String) : String :=
  match atId with
  | none => "unknown"
  | some s => if s = "" then "unknown" else s

/-- One step of the `by_attendance` accumulation: the total is read as
`hc.get("total", 0) or 0`. -/
def bumpStep (m : List (String × Nat)) (hc : HcObj) : List (String × Nat) :=
  bump m (attKeyOf hc.attendance_type_id) (hc.total.getD 0)

/-- The `by_attendance` accumulation: totals grouped by attendance-type key. -/
def byAttendance (hcs : List HcObj) : List (String × Nat) :=
  hcs.foldl bumpStep []

/-- One element of `totals.by_attendance_type`. -/
structure AttTypeTotal where
  attendance_type_id : Option String
  name : String
  total : Nat
deriving DecidableEq, Repr

/-- Render one `by_attendance` bucket: the "unknown" key reports a `None` id
and empty name, any other key reports itself and its indexed name. -/
def renderAttBucket (idx : List (String × Option String)) (p : String × Nat) :
    AttTypeTotal :=
  if p.1 = "unknown" then ⟨none, "", p.2⟩
  else
    ⟨some p.1,
      (match dictGet idx p.1 with
       | none => ""
       | some n => n.getD ""),
      p.2⟩

/-- A `period` record (`fetch_event_period_for_date` result): JSON:API data
records always carry an `id`, read by `period["id"]`. -/
structure PeriodRec where
  id : String
deriving DecidableEq, Repr

/-- The dict returned by `build_output`, one constructor per `return` site;
the opaque `event` blob is kept as a string. -/
inductive BuildOutput where
  | noPeriod (event : String) (date : String) (msg : String)
  | full (event : String) (date : String) (period : PeriodRec)
      (event_times : List ETFull) (by_service_time : List ServiceTimeTotal)
      (by_attendance_type : List AttTypeTotal) (grand_total : Nat)
deriving DecidableEq, Repr

/-- The keys of the Python dict each `BuildOutput` constructor stands for. -/
def BuildOutput.keys : BuildOutput → List String
  | .noPeriod _ _ _ => ["event", "date", "error"]
  | .full _ _ _ _ _ _ _ => ["event", "date", "event_period", "event_times", "totals"]

/-- `simple.py`'s `build_output`, after the HTTP fetches are abstracted:
`eventObj` is the fetched event blob, `period` the result of
`fetch_event_period_for_date` (`none` = no session for the date), and
`fetchTimes` maps the period id to the paged `(data, included)` arrays of
the event-times query.  `build_output` has no exception handler, so a raised
`TypeError` propagates as `Except.error`. -/
def build_output (eventObj : String) (date : String) (period : Option PeriodRec)
    (fetchTimes : String → List ET × List Inc) : Except String BuildOutput :=
  match period with
  | none =>
    .ok (.noPeriod eventObj date ("No event_period (session) found for " ++ date ++ "."))
  | some p =>
    let ets := (fetchTimes p.id).1
    let included := (fetchTimes p.id).2
    let idx := indexAttendanceTypes included
    let hcsAll := hcsAllOf included
    let groups := groupByEventTime hcsAll
    let etf := eventTimesFull ets groups
    match totalsByServiceTime etf with
    | .error e => .error e
    | .ok bst =>
      let bat := (byAttendance hcsAll).map (renderAttBucket idx)
      match pySumTotals (hcsAll.map (fun hc => hc.total)) with
      | .error e => .error e
      | .ok g => .ok (.full eventObj date p etf bst bat g)

/-- Sum of the reported `by_service_time` totals. -/
def bstSum (l : List ServiceTimeTotal) : Nat := (l.map (fun x => x.total)).sum

/-- Sum of the reported `by_attendance_type` totals. -/
def batSum (l : List AttTypeTotal) : Nat := (l.map (fun x => x.total)).sum

/-! ## Lemmas about the `simple.py` folds -/

lemma pyStep_error (e : String) (t : Option Nat) : pyStep (.error e) t = .error e := by
  cases t <;> rfl

lemma pyFold_error (l : List (Option Nat)) (e : String) :
    l.foldl pyStep (.error e) = .error e := by
  induction l with
  | nil => rfl
  | cons t ts ih => simp [List.foldl_cons, pyStep_error, ih]

/-- Characterization of Python's `sum` over optional totals: it succeeds
exactly when every total is non-null, and then computes the plain sum. -/
lemma pySum_go (l : List (Option Nat)) : ∀ s : Nat,
    l.foldl pyStep (.ok s) =
      if l.all (fun t => t.isSome) then .ok (s + (l.map (fun t => t.getD 0)).sum)
      else .error "TypeError: unsupported operand type(s) for +: int and NoneType" := by
  induction l with
  | nil => intro s; simp
  | cons t ts ih =>
    intro s
    cases t with
    | none => simp [List.foldl_cons, pyStep, pyFold_error]
    | some n =>
      have hstep : pyStep (.ok s) (some n) = .ok (s + n) := rfl
      simp only [List.foldl_cons, hstep, ih]
      by_cases hall : ts.all (fun t => t.isSome)
      · simp [hall, Nat.add_assoc]
      · simp [hall]

lemma pySumTotals_ok (l : List (Option Nat)) (n : Nat) (h : pySumTotals l = .ok n) :
    (∀ t ∈ l, t.isSome) ∧ n = (l.map (fun t => t.getD 0)).sum := by
  rw [pySumTotals, pySum_go] at h
  by_cases hall : l.all (fun t => t.isSome)
  · rw [if_pos hall] at h
    refine ⟨fun t ht => List.all_eq_true.mp hall t ht, ?_⟩
    have := Except.ok.inj h
    omega
  · rw [if_neg hall] at h
    exact absurd h (by simp)

lemma bstStep_error (e : String) (et : ETFull) : bstStep (.error e) et = .error e := rfl

lemma bstFold_error (etf : List ETFull) (e : String) :
    etf.foldl bstStep (.error e) = .error e := by
  induction etf with
  | nil => rfl
  | cons et ts ih => simp [List.foldl_cons, bstStep_error, ih]

/-- When the `totals_by_service_time` loop succeeds, each event time yields
one entry, in input order, whose total is the sum of its attached headcounts'
totals (each defaulted to 0). -/
lemma totalsBST_ok_aux (etf : List ETFull) : ∀ (acc bst : List ServiceTimeTotal),
    etf.foldl bstStep (.ok acc) = .ok bst →
    bst = acc ++ etf.map (fun et =>
      (⟨et.id, et.starts_at, (et.headcounts.map (fun hc => hc.total.getD 0)).sum⟩ :
        ServiceTimeTotal)) := by
  induction etf with
  | nil =>
    intro acc bst h
    simp only [List.foldl] at h
    simp [← Except.ok.inj h]
  | cons et ts ih =>
    intro acc bst h
    simp only [List.foldl_cons] at h
    cases hp : pySumTotals (et.headcounts.map (fun hc => hc.total)) with
    | error e =>
      rw [show bstStep (.ok acc) et = .error e by simp [bstStep, hp]] at h
      rw [bstFold_error] at h
      exact absurd h (by simp)
    | ok n =>
      rw [show bstStep (.ok acc) et = .ok (acc ++ [⟨et.id, et.starts_at, n⟩]) by
        simp [bstStep, hp]] at h
      have hrec := ih _ _ h
      obtain ⟨-, hn⟩ := pySumTotals_ok _ _ hp
      subst hrec
      simp only [hn, List.map_map, List.map_cons, List.append_assoc, List.cons_append,
        List.nil_append]
      rfl

lemma totalsByServiceTime_ok (etf : List ETFull) (bst : List ServiceTimeTotal)
    (h : totalsByServiceTime etf = .ok bst) :
    bst = etf.map (fun et =>
      (⟨et.id, et.starts_at, (et.headcounts.map (fun hc => hc.total.getD 0)).sum⟩ :
        ServiceTimeTotal)) := by
  simpa using totalsBST_ok_aux etf [] bst h

/-! ### Dict lookup lemmas -/

lemma dictGet_fold {α : Type} (k : String) (m : List (String × α)) :
    ∀ acc : Option α,
      m.foldl (fun acc q => if q.1 = k then some q.2 else acc) acc =
        match dictGet m k with
        | some v => some v
        | none => acc := by
  induction m with
  | nil => intro acc; rfl
  | cons q t ih =>
    intro acc
    simp only [List.foldl_cons]
    rw [ih]
    have hq : dictGet (q :: t) k =
        match dictGet t k with
        | some v => some v
        | none => if q.1 = k then some q.2 else none := by
      simp only [dictGet, List.foldl_cons]
      rw [ih]
      rfl
    rw [hq]
    cases hd : dictGet t k <;> by_cases hqk : q.1 = k <;> simp [hqk]

lemma dictGet_cons {α : Type} (q : String × α) (t : List (String × α)) (k : String) :
    dictGet (q :: t) k =
      match dictGet t k with
      | some v => some v
      | none => if q.1 = k then some q.2 else none := by
  simp only [dictGet, List.foldl_cons]
  rw [dictGet_fold]
  rfl

lemma dictGet_eq_none {α : Type} (m : List (String × α)) (k : String)
    (h : k ∉ m.map Prod.fst) : dictGet m k = none := by
  induction m with
  | nil => rfl
  | cons q t ih =>
    rw [dictGet_cons]
    have hq : q.1 ≠ k := fun hk => h (by simp [← hk])
    have ht : k ∉ t.map Prod.fst := fun hk => h (by simp [hk])
    rw [ih ht]
    simp [hq]

lemma dictGet_mem {α : Type} (m : List (String × α)) (k : String) (v : α)
    (h : dictGet m k = some v) : (k, v) ∈ m := by
  induction m with
  | nil => simp [dictGet] at h
  | cons q t ih =>
    rw [dictGet_cons] at h
    cases hd : dictGet t k with
    | some w =>
      rw [hd] at h
      exact List.mem_cons_of_mem q (ih (hd.trans h))
    | none =>
      rw [hd] at h
      by_cases hqk : q.1 = k
      · rw [if_pos hqk] at h
        obtain ⟨k', v'⟩ := q
        obtain rfl : k' = k := hqk
        obtain rfl : v' = v := Option.some.inj h
        exact List.mem_cons_self _ _
      · rw [if_neg hqk] at h
        exact absurd h (by simp)

/-! ### `bump` (the `by_attendance` dict update) -/

lemma bump_fst (m : List (String × Nat)) (k : String) (v : Nat) :
    (bump m k v).map Prod.fst =
      if k ∈ m.map Prod.fst then m.map Prod.fst else m.map Prod.fst ++ [k] := by
  induction m with
  | nil => simp [bump]
  | cons p t ih =>
    by_cases hp : p.1 = k
    · simp [bump, hp]
    · have hne : ¬ k = p.1 := fun h => hp h.symm
      by_cases hmem : k ∈ t.map Prod.fst <;>
        simp [bump, hp, ih, hmem, hne]

lemma bump_nodup (m : List (String × Nat)) (k : String) (v : Nat)
    (h : (m.map Prod.fst).Nodup) : ((bump m k v).map Prod.fst).Nodup := by
  rw [bump_fst]
  by_cases hmem : k ∈ m.map Prod.fst
  · simpa [hmem] using h
  · rw [if_neg hmem]
    refine h.append (List.nodup_singleton k) ?_
    intro a ha hb
    obtain rfl : a = k := by simpa using hb
    exact hmem ha

lemma dictGet_bump (m : List (String × Nat)) (k : String) (v : Nat) (k' : String)
    (hnd : (m.map Prod.fst).Nodup) :
    dictGet (bump m k v) k' =
      if k' = k then some ((dictGet m k).getD 0 + v) else dictGet m k' := by
  induction m with
  | nil =>
    by_cases hk : k' = k
    · simp [bump, dictGet_cons, dictGet, hk]
    · have : ¬ k = k' := fun h => hk h.symm
      simp [bump, dictGet_cons, dictGet, hk, this]
  | cons p t ih =>
    have hnd' : (t.map Prod.fst).Nodup := (List.nodup_cons.mp hnd).2
    have hpnot : p.1 ∉ t.map Prod.fst := (List.nodup_cons.mp hnd).1
    by_cases hp : p.1 = k
    · have htnone : dictGet t k = none := dictGet_eq_none t k (hp ▸ hpnot)
      have hb : bump (p :: t) k v = (p.1, p.2 + v) :: t := by simp [bump, hp]
      by_cases hk : k' = k
      · subst hk
        rw [hb, dictGet_cons (p.1, p.2 + v) t k', dictGet_cons p t k', htnone, if_pos rfl]
        simp [hp, htnone]
      · have hpk' : ¬ p.1 = k' := fun h => hk (h.symm.trans hp)
        rw [hb, dictGet_cons (p.1, p.2 + v) t k', dictGet_cons p t k', if_neg hk]
        cases hd : dictGet t k' <;> simp [hpk']
    · have hb : bump (p :: t) k v = p :: bump t k v := by simp [bump, hp]
      by_cases hk : k' = k
      · subst hk
        rw [hb, dictGet_cons p (bump t k' v) k', ih hnd', if_pos rfl, if_pos rfl,
          dictGet_cons p t k']
        cases hd : dictGet t k' <;> simp [hp]
      · rw [hb, dictGet_cons p (bump t k v) k', ih hnd', if_neg hk, if_neg hk,
          dictGet_cons p t k']

lemma bump_sndSum (m : List (String × Nat)) (k : String) (v : Nat) :
    ((bump m k v).map Prod.snd).sum = (m.map Prod.snd).sum + v := by
  induction m with
  | nil => simp [bump]
  | cons p t ih =>
    by_cases hp : p.1 = k
    · simp [bump, hp]
      omega
    · simp [bump, hp, ih]
      omega

/-- The filtered-and-defaulted total the spec assigns to one attendance-type
bucket. -/
def attBucketSum (hcs : List HcObj) (k : String) : Nat :=
  ((hcs.filter (fun hc => attKeyOf hc.attendance_type_id = k)).map
    (fun hc => hc.total.getD 0)).sum

lemma byAtt_fold_sum (hcs : List HcObj) : ∀ m : List (String × Nat),
    ((hcs.foldl bumpStep m).map Prod.snd).sum =
      (m.map Prod.snd).sum + (hcs.map (fun hc => hc.total.getD 0)).sum := by
  induction hcs with
  | nil => intro m; simp
  | cons hc t ih =>
    intro m
    simp only [List.foldl_cons, bumpStep, ih, bump_sndSum, List.map_cons, List.sum_cons]
    omega

/-- Sum of the `by_attendance` values equals the defaulted sum of all
headcount totals. -/
lemma byAttendance_sum (hcs : List HcObj) :
    ((byAttendance hcs).map Prod.snd).sum = (hcs.map (fun hc => hc.total.getD 0)).sum := by
  simpa using byAtt_fold_sum hcs []

lemma byAtt_fold_nodup (hcs : List HcObj) : ∀ m : List (String × Nat),
    (m.map Prod.fst).Nodup → (((hcs.foldl bumpStep m).map Prod.fst)).Nodup := by
  induction hcs with
  | nil => intro m h; simpa using h
  | cons hc t ih =>
    intro m h
    exact ih _ (bump_nodup _ _ _ h)

/-- Lookup in the `by_attendance` fold: an existing binding grows by the
bucket sum over the processed headcounts, a fresh key appears exactly when
some processed headcount buckets there. -/
lemma byAtt_fold_lookup (hcs : List HcObj) : ∀ (m : List (String × Nat)) (k : String),
    (m.map Prod.fst).Nodup →
    dictGet (hcs.foldl bumpStep m) k =
      match dictGet m k with
      | some v => some (v + attBucketSum hcs k)
      | none =>
        if hcs.any (fun hc => attKeyOf hc.attendance_type_id = k) then
          some (attBucketSum hcs k)
        else none := by
  induction hcs with
  | nil =>
    intro m k hnd
    cases hd : dictGet m k <;> simp [hd, attBucketSum]
  | cons hc t ih =>
    intro m k hnd
    simp only [List.foldl_cons, bumpStep]
    rw [ih _ k (bump_nodup _ _ _ hnd)]
    rw [dictGet_bump m _ _ k hnd]
    by_cases hk : k = attKeyOf hc.attendance_type_id
    · subst hk
      rw [if_pos rfl]
      have hfil : attBucketSum (hc :: t) (attKeyOf hc.attendance_type_id)
          = hc.total.getD 0 + attBucketSum t (attKeyOf hc.attendance_type_id) := by
        simp [attBucketSum, List.filter_cons]
      have hany : ((hc :: t).any
          (fun hc2 => attKeyOf hc2.attendance_type_id = attKeyOf hc.attendance_type_id))
            = true := by
        simp
      cases hd : dictGet m (attKeyOf hc.attendance_type_id) <;>
        simp [hd, hfil, hany, Nat.add_assoc]
    · rw [if_neg hk]
      have hne : ¬ attKeyOf hc.attendance_type_id = k := fun h => hk h.symm
      have hfil : attBucketSum (hc :: t) k = attBucketSum t k := by
        simp [attBucketSum, List.filter_cons, hne]
      have hany : (hc :: t).any (fun hc => attKeyOf hc.attendance_type_id = k)
          = t.any (fun hc => attKeyOf hc.attendance_type_id = k) := by
        simp [hne]
      cases hd : dictGet m k <;> simp [hd, hfil, hany]

lemma byAttendance_lookup (hcs : List HcObj) (k : String) :
    dictGet (byAttendance hcs) k =
      if hcs.any (fun hc => attKeyOf hc.attendance_type_id = k) then
        some (attBucketSum hcs k)
      else none := by
  have := byAtt_fold_lookup hcs [] k (by simp)
  simpa [byAttendance, dictGet] using this

/-! ### `insertAppend` (the `headcounts_by_event_time` grouping) -/

lemma insertAppend_fst (m : List (String × List HcObj)) (k : String) (hc : HcObj) :
    (insertAppend m k hc).map Prod.fst =
      if k ∈ m.map Prod.fst then m.map Prod.fst else m.map Prod.fst ++ [k] := by
  induction m with
  | nil => simp [insertAppend]
  | cons p t ih =>
    obtain ⟨k', l⟩ := p
    by_cases hp : k' = k
    · simp [insertAppend, hp]
    · have hne : ¬ k = k' := fun h => hp h.symm
      by_cases hmem : k ∈ t.map Prod.fst <;>
        simp [insertAppend, hp, ih, hmem, hne]

lemma insertAppend_nodup (m : List (String × List HcObj)) (k : String) (hc : HcObj)
    (h : (m.map Prod.fst).Nodup) : ((insertAppend m k hc).map Prod.fst).Nodup := by
  rw [insertAppend_fst]
  by_cases hmem : k ∈ m.map Prod.fst
  · simpa [hmem] using h
  · rw [if_neg hmem]
    refine h.append (List.nodup_singleton k) ?_
    intro a ha hb
    obtain rfl : a = k := by simpa using hb
    exact hmem ha

lemma dictGet_insertAppend (m : List (String × List HcObj)) (k : String) (hc : HcObj)
    (k' : String) (hnd : (m.map Prod.fst).Nodup) :
    dictGet (insertAppend m k hc) k' =
      if k' = k then some ((dictGet m k).getD [] ++ [hc]) else dictGet m k' := by
  induction m with
  | nil =>
    by_cases hk : k' = k
    · simp [insertAppend, dictGet_cons, dictGet, hk]
    · have : ¬ k = k' := fun h => hk h.symm
      simp [insertAppend, dictGet_cons, dictGet, hk, this]
  | cons p t ih =>
    have hnd' : (t.map Prod.fst).Nodup := (List.nodup_cons.mp hnd).2
    have hpnot : p.1 ∉ t.map Prod.fst := (List.nodup_cons.mp hnd).1
    by_cases hp : p.1 = k
    · have htnone : dictGet t k = none := dictGet_eq_none t k (hp ▸ hpnot)
      have hb : insertAppend (p :: t) k hc = (p.1, p.2 ++ [hc]) :: t := by
        cases p; simp_all [insertAppend]
      by_cases hk : k' = k
      · subst hk
        rw [hb, dictGet_cons (p.1, p.2 ++ [hc]) t k', dictGet_cons p t k', htnone,
          if_pos rfl]
        simp [hp, htnone]
      · have hpk' : ¬ p.1 = k' := fun h => hk (h.symm.trans hp)
        rw [hb, dictGet_cons (p.1, p.2 ++ [hc]) t k', dictGet_cons p t k', if_neg hk]
        cases hd : dictGet t k' <;> simp [hpk']
    · have hb : insertAppend (p :: t) k hc = p :: insertAppend t k hc := by
        cases p; simp_all [insertAppend]
      by_cases hk : k' = k
      · subst hk
        rw [hb, dictGet_cons p (insertAppend t k' hc) k', ih hnd', if_pos rfl, if_pos rfl,
          dictGet_cons p t k']
        cases hd : dictGet t k' <;> simp [hp]
      · rw [hb, dictGet_cons p (insertAppend t k hc) k', ih hnd', if_neg hk, if_neg hk,
          dictGet_cons p t k']

/-- The headcounts the spec attaches to the event time with id `k`. -/
def etFilter (hcs : List HcObj) (k : String) : List HcObj :=
  hcs.filter (fun hc => hc.event_time_id = some k)

lemma group_fold_nodup (hcs : List HcObj) : ∀ m : List (String × List HcObj),
    (m.map Prod.fst).Nodup → (((hcs.foldl groupStep m).map Prod.fst)).Nodup := by
  induction hcs with
  | nil => intro m h; simpa using h
  | cons hc t ih =>
    intro m h
    refine ih _ ?_
    unfold groupStep
    cases hid : hc.event_time_id with
    | none => exact h
    | some s =>
      by_cases hs : s = ""
      · simpa [hs] using h
      · simpa [hs] using insertAppend_nodup m s hc h

/-- Lookup in the `headcounts_by_event_time` fold at a truthy key `k`: the
group collects exactly the processed headcounts whose `event_time_id` is
`some k`, in order. -/
lemma group_fold_lookup (hcs : List HcObj) : ∀ (m : List (String × List HcObj)) (k : String),
    (m.map Prod.fst).Nodup → k ≠ "" →
    dictGet (hcs.foldl groupStep m) k =
      match dictGet m k with
      | some l => some (l ++ etFilter hcs k)
      | none =>
        if hcs.any (fun hc => hc.event_time_id = some k) then some (etFilter hcs k)
        else none := by
  induction hcs with
  | nil =>
    intro m k hnd hk
    cases hd : dictGet m k <;> simp [hd, etFilter]
  | cons hc t ih =>
    intro m k hnd hk
    simp only [List.foldl_cons]
    cases hid : hc.event_time_id with
    | none =>
      rw [show groupStep m hc = m by simp [groupStep, hid]]
      rw [ih m k hnd hk]
      have hfil : etFilter (hc :: t) k = etFilter t k := by
        simp [etFilter, List.filter_cons, hid]
      have hany : (hc :: t).any (fun hc => hc.event_time_id = some k)
          = t.any (fun hc => hc.event_time_id = some k) := by
        simp [hid]
      cases hd : dictGet m k <;> simp [hd, hfil, hany]
    | some s =>
      by_cases hs : s = ""
      · rw [show groupStep m hc = m by simp [groupStep, hid, hs]]
        rw [ih m k hnd hk]
        have hsk : ¬ (some s : Option String) = some k := by
          simp [hs]; exact fun h => hk h.symm
        have hfil : etFilter (hc :: t) k = etFilter t k := by
          simp only [etFilter, List.filter_cons, hid]
          simp [hsk]
        have hany : (hc :: t).any (fun hc => hc.event_time_id = some k)
            = t.any (fun hc => hc.event_time_id = some k) := by
          simp [hid, hsk]
        cases hd : dictGet m k <;> simp [hd, hfil, hany]
      · rw [show groupStep m hc = insertAppend m s hc by simp [groupStep, hid, hs]]
        rw [ih _ k (insertAppend_nodup m s hc hnd) hk]
        rw [dictGet_insertAppend m s hc k hnd]
        by_cases hks : k = s
        · subst hks
          have hfil : etFilter (hc :: t) k = hc :: etFilter t k := by
            simp [etFilter, List.filter_cons, hid]
          have hany : (hc :: t).any (fun hc => hc.event_time_id = some k) = true := by
            simp [hid]
          cases hd : dictGet m k <;> simp [hd, hfil, hany]
        · rw [if_neg hks]
          have hne : ¬ (some s : Option String) = some k := by
            simp; exact fun h => hks h.symm
          have hfil : etFilter (hc :: t) k = etFilter t k := by
            simp only [etFilter, List.filter_cons, hid]
            simp [hne]
          have hany : (hc :: t).any (fun hc => hc.event_time_id = some k)
              = t.any (fun hc => hc.event_time_id = some k) := by
            simp [hid, hne]
          cases hd : dictGet m k <;> simp [hd, hfil, hany]

/-- The group attached to a truthy event-time id is exactly the filtered
headcount list. -/
lemma groupByEventTime_lookup (hcs : List HcObj) (k : String) (hk : k ≠ "") :
    (dictGet (groupByEventTime hcs) k).getD [] = etFilter hcs k := by
  have h := group_fold_lookup hcs [] k (by simp) hk
  rw [show dictGet ([] : List (String × List HcObj)) k = none from rfl] at h
  by_cases hany : hcs.any (fun hc => hc.event_time_id = some k)
  · rw [groupByEventTime, h]
    simp [hany]
  · have hnil : etFilter hcs k = [] := by
      rw [etFilter, List.filter_eq_nil_iff]
      intro a ha hmatch
      simp only [List.any_eq_true, not_exists, not_and] at hany
      exact absurd (of_decide_eq_true hmatch) (by simpa using hany a ha)
    rw [groupByEventTime, h]
    simp [hany, hnil]

/-! ### Summation helpers -/

lemma sum_map_add_distrib {α : Type} (l : List α) (f g : α → Nat) :
    (l.map (fun x => f x + g x)).sum = (l.map f).sum + (l.map g).sum := by
  induction l with
  | nil => simp
  | cons a t ih =>
    simp only [List.map_cons, List.sum_cons, ih]
    omega

lemma sum_if_single (os : List (Option String)) (o₀ : Option String) (v : Nat)
    (hnd : os.Nodup) (hmem : o₀ ∈ os) :
    (os.map (fun o => if o₀ = o then v else 0)).sum = v := by
  induction os with
  | nil => simp at hmem
  | cons o t ih =>
    obtain ⟨hnotin, hndt⟩ := List.nodup_cons.mp hnd
    rcases List.mem_cons.mp hmem with rfl | hmem'
    · simp only [List.map_cons, List.sum_cons, if_pos rfl]
      have hz : (t.map (fun o2 => if o₀ = o2 then v else 0)).sum = 0 := by
        apply List.sum_eq_zero
        intro x hx
        obtain ⟨o', ho', rfl⟩ := List.mem_map.mp hx
        have hne : ¬ o₀ = o' := fun h => hnotin (h ▸ ho')
        simp [hne]
      simp [hz]
    · have hne : ¬ o₀ = o := fun h => hnotin (h ▸ hmem')
      simp [hne, ih hndt hmem']

/-- Partitioning the defaulted totals of headcounts by their (distinct)
event-time ids recovers the total sum, provided every headcount's id occurs
among the partition keys. -/
lemma sum_partition_by_et (hcs : List HcObj) (os : List (Option String)) (hnd : os.Nodup)
    (hcov : ∀ hc ∈ hcs, hc.event_time_id ∈ os) :
    (os.map (fun o =>
      ((hcs.filter (fun hc => hc.event_time_id = o)).map
        (fun hc => hc.total.getD 0)).sum)).sum
      = (hcs.map (fun hc => hc.total.getD 0)).sum := by
  induction hcs with
  | nil =>
    simp only [List.filter_nil, List.map_nil, List.sum_nil]
    apply List.sum_eq_zero
    intro x hx
    obtain ⟨o, -, rfl⟩ := List.mem_map.mp hx
    rfl
  | cons hc t ih =>
    have hstep : ∀ o ∈ os,
        (((hc :: t).filter (fun hc2 => hc2.event_time_id = o)).map
          (fun hc2 => hc2.total.getD 0)).sum
          = (if hc.event_time_id = o then hc.total.getD 0 else 0)
            + ((t.filter (fun hc2 => hc2.event_time_id = o)).map
              (fun hc2 => hc2.total.getD 0)).sum := by
      intro o _
      by_cases h : hc.event_time_id = o <;> simp [List.filter_cons, h]
    rw [List.map_congr_left hstep, sum_map_add_distrib,
      sum_if_single os hc.event_time_id (hc.total.getD 0) hnd (hcov hc (by simp)),
      ih (fun hc2 h2 => hcov hc2 (by simp [h2]))]
    simp

/-- Rendering a `by_attendance` bucket does not change its total. -/
lemma renderAttBucket_total (idx : List (String × Option String)) (p : String × Nat) :
    (renderAttBucket idx p).total = p.2 := by
  by_cases h : p.1 = "unknown" <;> simp [renderAttBucket, h]

/-! ### Inverting a successful `build_output` -/

lemma build_output_full_inv (eventObj date : String) (p : PeriodRec)
    (fetchTimes : String → List ET × List Inc)
    (e d : String) (pr : PeriodRec) (etf : List ETFull) (bst : List ServiceTimeTotal)
    (bat : List AttTypeTotal) (g : Nat)
    (hout : build_output eventObj date (some p) fetchTimes =
      .ok (.full e d pr etf bst bat g)) :
    e = eventObj ∧ d = date ∧ pr = p ∧
    etf = eventTimesFull (fetchTimes p.id).1
      (groupByEventTime (hcsAllOf (fetchTimes p.id).2)) ∧
    totalsByServiceTime etf = .ok bst ∧
    bat = (byAttendance (hcsAllOf (fetchTimes p.id).2)).map
      (renderAttBucket (indexAttendanceTypes (fetchTimes p.id).2)) ∧
    pySumTotals ((hcsAllOf (fetchTimes p.id).2).map (fun hc => hc.total)) = .ok g := by
  simp only [build_output] at hout
  cases hbst : totalsByServiceTime (eventTimesFull (fetchTimes p.id).1
      (groupByEventTime (hcsAllOf (fetchTimes p.id).2))) with
  | error err =>
    rw [hbst] at hout
    exact absurd hout (by simp)
  | ok bst' =>
    rw [hbst] at hout
    cases hg : pySumTotals ((hcsAllOf (fetchTimes p.id).2).map (fun hc => hc.total)) with
    | error err =>
      rw [hg] at hout
      exact absurd hout (by simp)
    | ok g' =>
      rw [hg] at hout
      simp only [Except.ok.injEq, BuildOutput.full.injEq] at hout
      obtain ⟨he, hd, hpr, hetf, hbsteq, hbat, hgeq⟩ := hout
      refine ⟨he.symm, hd.symm, hpr.symm, hetf.symm, ?_, hbat.symm, ?_⟩
      · rw [← hetf, hbst, hbsteq]
      · exact congrArg Except.ok hgeq

/-- Characterization of a successful `by_service_time`: when every fetched
event time has a non-empty id, each event time yields one entry, in input
order, totalling the headcounts whose `event_time_id` matches it. -/
lemma bst_entries (eventObj date : String) (p : PeriodRec)
    (fetchTimes : String → List ET × List Inc)
    (e d : String) (pr : PeriodRec) (etf : List ETFull) (bst : List ServiceTimeTotal)
    (bat : List AttTypeTotal) (g : Nat)
    (hout : build_output eventObj date (some p) fetchTimes =
      .ok (.full e d pr etf bst bat g))
    (hsome : ∀ o ∈ (fetchTimes p.id).1.map ET.id, ∃ s, o = some s ∧ s ≠ "") :
    bst = (fetchTimes p.id).1.map (fun et =>
      (⟨et.id, et.attrStartsAt.getD "",
        (((hcsAllOf (fetchTimes p.id).2).filter
          (fun hc => hc.event_time_id = et.id)).map
            (fun hc => hc.total.getD 0)).sum⟩ : ServiceTimeTotal)) := by
  obtain ⟨-, -, -, hetf, hbst, -, -⟩ := build_output_full_inv _ _ _ _ _ _ _ _ _ _ _ hout
  have hbst' := totalsByServiceTime_ok _ _ hbst
  rw [hbst', hetf, eventTimesFull, List.map_map]
  apply List.map_congr_left
  intro et hmem
  obtain ⟨s, hs, hs'⟩ := hsome et.id (List.mem_map_of_mem ET.id hmem)
  simp only [Function.comp_apply, hs]
  rw [groupByEventTime_lookup (hcsAllOf (fetchTimes p.id).2) s hs']
  rfl

/-- C8: in a successful full-detail aggregation whose fetched event times all
carry non-empty ids, `by_service_time` has one entry per event time, in input
order, whose total is the sum of the totals of the headcounts whose
`event_time_id` matches that event time (0 when none match). -/
theorem by_service_time_entries (eventObj date : String) (p : PeriodRec)
    (fetchTimes : String → List ET × List Inc)
    (e d : String) (pr : PeriodRec) (etf : List ETFull) (bst : List ServiceTimeTotal)
    (bat : List AttTypeTotal) (g : Nat)
    (hout : build_output eventObj date (some p) fetchTimes =
      .ok (.full e d pr etf bst bat g))
    (hsome : ∀ o ∈ (fetchTimes p.id).1.map ET.id, ∃ s, o = some s ∧ s ≠ "") :
    bst = (fetchTimes p.id).1.map (fun et =>
      (⟨et.id, et.attrStartsAt.getD "",
        (((hcsAllOf (fetchTimes p.id).2).filter
          (fun hc => hc.event_time_id = et.id)).map
            (fun hc => hc.total.getD 0)).sum⟩ : ServiceTimeTotal)) :=
  bst_entries eventObj date p fetchTimes e d pr etf bst bat g hout hsome

/-- One fetched event time with id `t1`. -/
def demoET1 : ET := ⟨some "t1", some "2025-09-21T08:15:00Z"⟩

/-- A headcount of 7 attached to event time `t1` and attendance type `a1`. -/
def demoHcT1 : Inc := ⟨"Headcount", "h1", none, .num 7, some "a1", some "t1"⟩

/-- A fetch returning one event time and one attached headcount. -/
def demoFetch1 : String → List ET × List Inc := fun _ => ([demoET1], [demoHcT1])

/-- Witness for C8 at a concrete one-slot input. -/
theorem by_service_time_entries_witness :
    ([⟨some "t1", "2025-09-21T08:15:00Z", 7⟩] : List ServiceTimeTotal) =
      (demoFetch1 "p1").1.map (fun et =>
        (⟨et.id, et.attrStartsAt.getD "",
          (((hcsAllOf (demoFetch1 "p1").2).filter
            (fun hc => hc.event_time_id = et.id)).map
              (fun hc => hc.total.getD 0)).sum⟩ : ServiceTimeTotal)) :=
  by_service_time_entries "E" "2025-09-21" ⟨"p1"⟩ demoFetch1
    "E" "2025-09-21" ⟨"p1"⟩
    [⟨some "t1", "2025-09-21T08:15:00Z", [⟨"h1", some 7, some "a1", "", some "t1"⟩]⟩]
    [⟨some "t1", "2025-09-21T08:15:00Z", 7⟩]
    [⟨some "a1", "", 7⟩] 7 rfl
    (by
      intro o ho
      simp only [demoFetch1, demoET1, List.map_cons, List.map_nil, List.mem_singleton] at ho
      exact ⟨"t1", ho, by decide⟩)

/-- C2 (amended): in a successful full-detail aggregation, the
`by_attendance_type` totals always sum to the grand total, which is the sum
of all fetched headcount totals; the `by_service_time` totals sum to the same
number provided the fetched event times carry distinct non-empty ids and
every headcount's `event_time_id` is the id of some fetched event time. -/
theorem totals_agree (eventObj date : String) (p : PeriodRec)
    (fetchTimes : String → List ET × List Inc)
    (e d : String) (pr : PeriodRec) (etf : List ETFull) (bst : List ServiceTimeTotal)
    (bat : List AttTypeTotal) (g : Nat)
    (hout : build_output eventObj date (some p) fetchTimes =
      .ok (.full e d pr etf bst bat g))
    (hnd : ((fetchTimes p.id).1.map ET.id).Nodup)
    (hsome : ∀ o ∈ (fetchTimes p.id).1.map ET.id, ∃ s, o = some s ∧ s ≠ "")
    (hcov : ∀ hc ∈ hcsAllOf (fetchTimes p.id).2,
      hc.event_time_id ∈ (fetchTimes p.id).1.map ET.id) :
    bstSum bst = g ∧ batSum bat = g ∧
    g = ((hcsAllOf (fetchTimes p.id).2).map (fun hc => hc.total.getD 0)).sum := by
  obtain ⟨-, -, -, -, -, hbat, hg⟩ := build_output_full_inv _ _ _ _ _ _ _ _ _ _ _ hout
  obtain ⟨-, hgsum⟩ := pySumTotals_ok _ _ hg
  have hg' : g = ((hcsAllOf (fetchTimes p.id).2).map (fun hc => hc.total.getD 0)).sum := by
    rw [hgsum, List.map_map]
    rfl
  refine ⟨?_, ?_, hg'⟩
  · have hb := bst_entries eventObj date p fetchTimes e d pr etf bst bat g hout hsome
    rw [hb, bstSum, List.map_map]
    have hrw : ((fetchTimes p.id).1.map
          ((fun x => x.total) ∘ (fun et =>
            (⟨et.id, et.attrStartsAt.getD "",
              (((hcsAllOf (fetchTimes p.id).2).filter
                (fun hc => hc.event_time_id = et.id)).map
                  (fun hc => hc.total.getD 0)).sum⟩ : ServiceTimeTotal))))
        = ((fetchTimes p.id).1.map ET.id).map (fun o =>
            (((hcsAllOf (fetchTimes p.id).2).filter
              (fun hc => hc.event_time_id = o)).map
                (fun hc => hc.total.getD 0)).sum) := by
      rw [List.map_map]
      rfl
    rw [hrw, sum_partition_by_et (hcsAllOf (fetchTimes p.id).2)
      ((fetchTimes p.id).1.map ET.id) hnd hcov, ← hg']
  · rw [hbat, batSum, List.map_map]
    have hrender : (byAttendance (hcsAllOf (fetchTimes p.id).2)).map
          ((fun x => x.total) ∘ renderAttBucket (indexAttendanceTypes (fetchTimes p.id).2))
        = (byAttendance (hcsAllOf (fetchTimes p.id).2)).map Prod.snd :=
      List.map_congr_left (fun q _ => renderAttBucket_total _ q)
    rw [hrender, byAttendance_sum, ← hg']

/-- A headcount of 5 with no event-time relationship. -/
def demoHcNoEt : Inc := ⟨"Headcount", "h3", none, .num 5, some "a1", none⟩

/-- A fetch returning no event times and one unattached headcount. -/
def demoFetchNoEt : String → List ET × List Inc := fun _ => ([], [demoHcNoEt])

/-- Counterexample to C2 as stated: a headcount whose `event_time_id` is
absent is counted by `by_attendance_type` and the grand total (both 5) but by
no `by_service_time` entry (sum 0), so the three sums are not all equal. -/
theorem totals_agree_counterexample :
    build_output "E" "2025-09-21" (some ⟨"p1"⟩) demoFetchNoEt =
      .ok (.full "E" "2025-09-21" ⟨"p1"⟩ [] [] [⟨some "a1", "", 5⟩] 5)
    ∧ bstSum [] = 0 ∧ batSum [⟨some "a1", "", 5⟩] = 5 ∧ (0 : Nat) ≠ 5 :=
  ⟨rfl, rfl, rfl, by decide⟩

/-- Witness for C2 at the concrete one-slot input. -/
theorem totals_agree_witness :
    bstSum [⟨some "t1", "2025-09-21T08:15:00Z", 7⟩] = 7 ∧
    batSum [⟨some "a1", "", 7⟩] = 7 ∧
    7 = ((hcsAllOf (demoFetch1 "p1").2).map (fun hc => hc.total.getD 0)).sum :=
  totals_agree "E" "2025-09-21" ⟨"p1"⟩ demoFetch1
    "E" "2025-09-21" ⟨"p1"⟩
    [⟨some "t1", "2025-09-21T08:15:00Z", [⟨"h1", some 7, some "a1", "", some "t1"⟩]⟩]
    [⟨some "t1", "2025-09-21T08:15:00Z", 7⟩]
    [⟨some "a1", "", 7⟩] 7 rfl
    (by decide)
    (by
      intro o ho
      simp only [demoFetch1, demoET1, List.map_cons, List.map_nil, List.mem_singleton] at ho
      exact ⟨"t1", ho, by decide⟩)
    (by
      intro hc hmem
      simp only [demoFetch1, demoHcT1] at hmem
      simp only [hcsAllOf, indexAttendanceTypes, mkHcObj] at hmem
      simp at hmem
      subst hmem
      simp only [demoFetch1, demoET1, List.map_cons, List.map_nil, List.mem_singleton]
      rfl)

/-- C9: in a successful full-detail aggregation containing a headcount with
no attendance-type relationship (and no headcount using the reserved keys ""
or "unknown" as an actual id), `by_attendance_type` contains an explicit
unknown bucket with a `None` id and empty name whose total sums exactly the
headcounts without an attendance type, and the grand total still counts every
headcount. -/
theorem unknown_bucket_preserved (eventObj date : String) (p : PeriodRec)
    (fetchTimes : String → List ET × List Inc)
    (e d : String) (pr : PeriodRec) (etf : List ETFull) (bst : List ServiceTimeTotal)
    (bat : List AttTypeTotal) (g : Nat)
    (hout : build_output eventObj date (some p) fetchTimes =
      .ok (.full e d pr etf bst bat g))
    (hclean : ∀ hc ∈ hcsAllOf (fetchTimes p.id).2,
      hc.attendance_type_id ≠ some "" ∧ hc.attendance_type_id ≠ some "unknown")
    (hhas : ∃ hc ∈ hcsAllOf (fetchTimes p.id).2, hc.attendance_type_id = none) :
    (∃ entry ∈ bat, entry.attendance_type_id = none ∧ entry.name = "" ∧
      entry.total = (((hcsAllOf (fetchTimes p.id).2).filter
        (fun hc => hc.attendance_type_id = none)).map
          (fun hc => hc.total.getD 0)).sum)
    ∧ g = ((hcsAllOf (fetchTimes p.id).2).map (fun hc => hc.total.getD 0)).sum := by
  obtain ⟨-, -, -, -, -, hbat, hg⟩ := build_output_full_inv _ _ _ _ _ _ _ _ _ _ _ hout
  obtain ⟨-, hgsum⟩ := pySumTotals_ok _ _ hg
  have hg' : g = ((hcsAllOf (fetchTimes p.id).2).map (fun hc => hc.total.getD 0)).sum := by
    rw [hgsum, List.map_map]
    rfl
  have hany : (hcsAllOf (fetchTimes p.id).2).any
      (fun hc => attKeyOf hc.attendance_type_id = "unknown") = true := by
    obtain ⟨hc0, hmem0, hnone0⟩ := hhas
    refine List.any_eq_true.mpr ⟨hc0, hmem0, ?_⟩
    simp [attKeyOf, hnone0]
  have hlook := byAttendance_lookup (hcsAllOf (fetchTimes p.id).2) "unknown"
  rw [if_pos hany] at hlook
  have hmem := dictGet_mem _ _ _ hlook
  have hfilEq : (hcsAllOf (fetchTimes p.id).2).filter
        (fun hc => attKeyOf hc.attendance_type_id = "unknown")
      = (hcsAllOf (fetchTimes p.id).2).filter
        (fun hc => hc.attendance_type_id = none) := by
    apply List.filter_congr
    intro hc hmemhc
    obtain ⟨h1, h2⟩ := hclean hc hmemhc
    cases hat : hc.attendance_type_id with
    | none => simp [attKeyOf]
    | some s =>
      rw [hat] at h1 h2
      have hs : ¬ s = "" := fun h => h1 (by rw [h])
      have hu : ¬ s = "unknown" := fun h => h2 (by rw [h])
      simp [attKeyOf, hs, hu]
  refine ⟨⟨renderAttBucket (indexAttendanceTypes (fetchTimes p.id).2)
      ("unknown", attBucketSum (hcsAllOf (fetchTimes p.id).2) "unknown"),
      ?_, ?_, ?_, ?_⟩, hg'⟩
  · rw [hbat]
    exact List.mem_map_of_mem _ hmem
  · simp [renderAttBucket]
  · simp [renderAttBucket]
  · simp [renderAttBucket, attBucketSum, hfilEq]

/-- A headcount of 9 whose attendance-type relationship is absent. -/
def demoHcNoAt : Inc := ⟨"Headcount", "h4", none, .num 9, none, some "t1"⟩

/-- A fetch returning one event time, one labelled headcount and one
headcount with no attendance type. -/
def demoFetchNoAt : String → List ET × List Inc :=
  fun _ => ([demoET1], [demoHcT1, demoHcNoAt])

/-- Witness for C9 at a concrete input holding one untyped headcount. -/
theorem unknown_bucket_preserved_witness :
    (∃ entry ∈ ([⟨some "a1", "", 7⟩, ⟨none, "", 9⟩] : List AttTypeTotal),
      entry.attendance_type_id = none ∧ entry.name = "" ∧
      entry.total = (((hcsAllOf (demoFetchNoAt "p1").2).filter
        (fun hc => hc.attendance_type_id = none)).map
          (fun hc => hc.total.getD 0)).sum)
    ∧ 16 = ((hcsAllOf (demoFetchNoAt "p1").2).map (fun hc => hc.total.getD 0)).sum :=
  unknown_bucket_preserved "E" "2025-09-21" ⟨"p1"⟩ demoFetchNoAt
    "E" "2025-09-21" ⟨"p1"⟩
    [⟨some "t1", "2025-09-21T08:15:00Z",
      [⟨"h1", some 7, some "a1", "", some "t1"⟩, ⟨"h4", some 9, none, "", some "t1"⟩]⟩]
    [⟨some "t1", "2025-09-21T08:15:00Z", 16⟩]
    [⟨some "a1", "", 7⟩, ⟨none, "", 9⟩] 16 rfl
    (by
      intro hc hmem
      simp only [demoFetchNoAt, demoHcT1, demoHcNoAt, hcsAllOf, indexAttendanceTypes,
        mkHcObj] at hmem
      simp at hmem
      rcases hmem with rfl | rfl <;> exact ⟨by decide, by decide⟩)
    ⟨⟨"h4", some 9, none, "", some "t1"⟩, by decide, rfl⟩

/-! ## C3/C4: the no-period branch and null totals -/

/-- Counterexample to C3 as stated: the named-service operation's no-period
result carries only the keys `date` and `error` — it contains no `event`
key, so the claim that both attendance operations return "only the event,
the date, and an explanatory not-found indicator" fails on it. -/
theorem no_period_counterexample :
    (get_total_attendance_details_for_date "2025-09-21" true []
      (fun _ => [])).keys = ["date", "error"]
    ∧ "event" ∉ (get_total_attendance_details_for_date "2025-09-21" true []
      (fun _ => [])).keys := by
  decide

/-- C3 (amended): on zero matching event periods both attendance operations
return partial data without running the aggregation (the result is a fixed
value independent of the event-times fetch): `build_output` returns exactly
the keys `event`, `date` and a not-found `error` message, while the
named-service operation returns exactly the keys `date` and `error`; neither
is the bare one-key error-object shape. -/
theorem no_period_partial_data :
    (∀ (eventObj date : String) (ft : String → List ET × List Inc),
      build_output eventObj date none ft =
        .ok (.noPeriod eventObj date
          ("No event_period (session) found for " ++ date ++ ".")))
    ∧ (∀ (eventObj date msg : String),
      (BuildOutput.noPeriod eventObj date msg).keys = ["event", "date", "error"]
      ∧ (BuildOutput.noPeriod eventObj date msg).keys ≠ ["error"])
    ∧ (∀ (date : String) (fetch : Option String → List Inc),
      get_total_attendance_details_for_date date true [] fetch =
        .noPeriod date ("No event_period (session) found for " ++ date ++ "."))
    ∧ (∀ (date msg : String),
      (TotalAttendanceResult.noPeriod date msg).keys = ["date", "error"]
      ∧ (TotalAttendanceResult.noPeriod date msg).keys ≠ ["error"]) := by
  refine ⟨fun eventObj date ft => rfl,
    fun eventObj date msg => ⟨rfl, by simp only [BuildOutput.keys]; decide⟩,
    fun date fetch => rfl,
    fun date msg => ⟨rfl, by simp only [TotalAttendanceResult.keys]; decide⟩⟩

/-- A headcount whose `total` attribute is JSON `null`, attached to event
time `t1`. -/
def demoHcNullTotal : Inc := ⟨"Headcount", "h5", none, .null, some "a1", some "t1"⟩

/-- A fetch returning one event time and one null-total headcount. -/
def demoFetchNull : String → List ET × List Inc := fun _ => ([demoET1], [demoHcNullTotal])

/-- A headcount whose `total` attribute key is absent. -/
def demoHcMissingTotal : Inc := ⟨"Headcount", "h6", none, .missing, some "a1", some "t1"⟩

/-- A fetch returning one event time and one missing-total headcount. -/
def demoFetchMissing : String → List ET × List Inc :=
  fun _ => ([demoET1], [demoHcMissingTotal])

/-- C4, evaluated at the failing input: a JSON-null `total` makes
`build_output`'s per-service-time summation raise a `TypeError` (the claim
says it is treated as 0 and never errors), while an absent `total` key is
indeed read as 0 throughout `build_output`, and the `working.py` max-select
path reads a null total as 0 without error. -/
theorem null_total_type_error :
    build_output "E" "2025-09-21" (some ⟨"p1"⟩) demoFetchNull =
      .error "TypeError: unsupported operand type(s) for +: int and NoneType"
    ∧ build_output "E" "2025-09-21" (some ⟨"p1"⟩) demoFetchMissing =
      .ok (.full "E" "2025-09-21" ⟨"p1"⟩
        [⟨some "t1", "2025-09-21T08:15:00Z",
          [⟨"h6", some 0, some "a1", "", some "t1"⟩]⟩]
        [⟨some "t1", "2025-09-21T08:15:00Z", 0⟩]
        [⟨some "a1", "", 0⟩] 0)
    ∧ get_total_attendance_details_for_date "2025-09-21" true [some "p1"]
        (fun _ => [demoHcNullTotal]) =
      .ok "2025-09-21"
        [("EH 10:15am", 0), ("EH 12:15pm", 0), ("EH 8:15am", 0),
         ("EW 11:00am", 0), ("EW 9:00am", 0)] 0 :=
  ⟨rfl, rfl, rfl⟩

/-! ## C5: the resource pager of `simple.py` -/

/-- One decoded page of a paged response: the `data` and `included` arrays
and `page.get("links", {}).get("next", "")` (kept as the raw optional
field). -/
structure Page where
  data : List ET
  included : List Inc
  linksNext : Option String
deriving DecidableEq, Repr

/-- The `while url:` loop of `fetch_event_times_with_headcounts`, with an
explicit fuel bound on the number of `_request` calls: `none` means the loop
is still running when the fuel runs out.  Each iteration accumulates the
page's arrays, replaces the url by the page's `next` link verbatim, and
clears the params (`params = {}` after the first call). -/
def pageLoop (req : String → List (String × String) → Page)
    (url : String) (params : List (String × String))
    (accT : List ET) (accI : List Inc) : Nat → Option (List ET × List Inc)
  | 0 => if url = "" then some (accT, accI) else none
  | Nat.succ f =>
    if url = "" then some (accT, accI)
    else
      let page := req url params
      pageLoop req (page.linksNext.getD "") [] (accT ++ page.data)
        (accI ++ page.included) f

/-- `simple.py`'s `fetch_event_times_with_headcounts`: start at the scoped
event-times path with the `per_page`/`include` params and follow `next`
links. -/
def fetch_event_times_with_headcounts (req : String → List (String × String) → Page)
    (eventId periodId : String) (fuel : Nat) : Option (List ET × List Inc) :=
  pageLoop req
    ("/events/" ++ eventId ++ "/event_periods/" ++ periodId ++ "/event_times")
    [("per_page", "100"), ("include", "headcounts,headcounts.attendance_type")]
    [] [] fuel

/-- A backend whose every page points its `next` link back at the requested
url: a cyclic pagination chain. -/
def cyclicReq : String → List (String × String) → Page :=
  fun url _ => ⟨[], [], some url⟩

lemma pageLoop_cyclic (url : String) (hurl : url ≠ "") :
    ∀ (fuel : Nat) (params : List (String × String)) (accT : List ET) (accI : List Inc),
      pageLoop cyclicReq url params accT accI fuel = none := by
  intro fuel
  induction fuel with
  | zero =>
    intro params accT accI
    simp [pageLoop, hurl]
  | succ f ih =>
    intro params accT accI
    simp only [pageLoop, if_neg hurl, cyclicReq, Option.getD_some, List.append_nil]
    exact ih [] accT accI

lemma pageLoop_done (req : String → List (String × String) → Page)
    (params : List (String × String)) (accT : List ET) (accI : List Inc) (fuel : Nat) :
    pageLoop req "" params accT accI fuel = some (accT, accI) := by
  cases fuel <;> simp [pageLoop]

/-- Counterexample to C5 as stated: there is no page-count ceiling and no
`PaginationOverrun` anywhere in the pager — on a backend whose `next` link
repeats the same url, the loop is still running after 10000 page fetches. -/
theorem pager_overrun_counterexample :
    fetch_event_times_with_headcounts cyclicReq "701347" "p1" 10000 = none :=
  pageLoop_cyclic _ (by decide) 10000 _ _ _

/-- C5 (amended): the pager follows the backend's `next` link verbatim,
clearing the initial params after the first call (its behaviour depends on
the backend only through the first call and through calls with empty
params); it terminates exactly when a page arrives with no `next` link (the
accumulated arrays are returned); but it has no page-count ceiling and no
`PaginationOverrun` failure: on a cyclic `next` link it runs forever,
exhausting every fuel bound. -/
theorem pager_no_ceiling :
    (∀ fuel : Nat,
      fetch_event_times_with_headcounts cyclicReq "701347" "p1" fuel = none)
    ∧ (∀ (req : String → List (String × String) → Page) (url : String)
        (params : List (String × String)) (accT : List ET) (accI : List Inc)
        (fuel : Nat),
        (req url params).linksNext.getD "" = "" → url ≠ "" →
        pageLoop req url params accT accI (fuel + 1) =
          some (accT ++ (req url params).data, accI ++ (req url params).included))
    ∧ (∀ (req : String → List (String × String) → Page)
        (params : List (String × String)) (accT : List ET) (accI : List Inc)
        (fuel : Nat),
        pageLoop req "" params accT accI fuel = some (accT, accI))
    ∧ (∀ (req req' : String → List (String × String) → Page),
        (∀ v, req v [] = req' v []) →
        ∀ (fuel : Nat) (url : String) (params : List (String × String))
          (accT : List ET) (accI : List Inc),
          req url params = req' url params →
          pageLoop req url params accT accI fuel =
            pageLoop req' url params accT accI fuel) := by
  refine ⟨fun fuel => pageLoop_cyclic _ (by decide) fuel _ _ _, ?_, pageLoop_done, ?_⟩
  · intro req url params accT accI fuel hnext hurl
    simp only [pageLoop, if_neg hurl, hnext]
    exact pageLoop_done req [] _ _ fuel
  · intro req req' h2 fuel
    induction fuel with
    | zero =>
      intro url params accT accI h1
      simp [pageLoop]
    | succ f ih =>
      intro url params accT accI h1
      by_cases hu : url = ""
      · simp [pageLoop, hu]
      · simp only [pageLoop, if_neg hu]
        rw [h1]
        exact ih _ [] _ _ (h2 _)

/-! ## C6/C10: the sliding-window rate limiter of `working.py` -/

/-- `working.py`'s `RateLimiter` state: `time.time()` floats are modelled as
integers (the code only compares differences of timestamps, so integer seconds suffice for every ordered fact used here). -/
structure RateLimiter where
  maxRequests : Nat
  timeWindow : Int
  requests : List Int
deriving DecidableEq, Repr

/-- The module-level `rate_limiter = RateLimiter()` with its defaults. -/
def initRateLimiter : RateLimiter := ⟨100, 60, []⟩

/-- The pruning comprehension: keep timestamps with `now - req_time <
time_window`. -/
def pruneReqs (timeWindow now : Int) (reqs : List Int) : List Int :=
  reqs.filter (fun t => now - t < timeWindow)

/-- `can_make_request`: prune, store the pruned list back, and compare
against the budget. -/
def can_make_request (rl : RateLimiter) (now : Int) : Bool × RateLimiter :=
  (decide ((pruneReqs rl.timeWindow now rl.requests).length < rl.maxRequests),
    ⟨rl.maxRequests, rl.timeWindow, pruneReqs rl.timeWindow now rl.requests⟩)

/-- `record_request`: append the current timestamp. -/
def record_request (rl : RateLimiter) (now : Int) : RateLimiter :=
  ⟨rl.maxRequests, rl.timeWindow, rl.requests ++ [now]⟩

/-- The rate-limit prologue of `make_sync_request`: check, then either
record and proceed or refuse.  The two `time.time()` reads of the source are
identified as the single instant `now`. -/
def rateLimitStep (rl : RateLimiter) (now : Int) : Bool × RateLimiter :=
  if (can_make_request rl now).1 then
    (true, record_request (can_make_request rl now).2 now)
  else
    (false, (can_make_request rl now).2)

/-- Run a sequence of calls through the limiter, collecting each call's
accept/reject outcome. -/
def runFlags (rl : RateLimiter) : List Int → List Bool
  | [] => []
  | t :: ts => (rateLimitStep rl t).1 :: runFlags (rateLimitStep rl t).2 ts

/-- Modelled from the claim's words: a call is accepted exactly when fewer
than 100 previously accepted requests have timestamps within the trailing
60-second window, capacity recovering purely by time passing. -/
def specWindowFlags (accepted : List Int) : List Int → List Bool
  | [] => []
  | t :: ts =>
    if (accepted.filter (fun u => t - u < 60)).length < 100 then
      true :: specWindowFlags (accepted ++ [t]) ts
    else
      false :: specWindowFlags accepted ts

/-- The simulation invariant: from any instant `t0` on, pruning the full
accepted history and pruning the limiter's stored list agree. -/
def WindowAgree (A R : List Int) (t0 : Int) : Prop :=
  ∀ now : Int, t0 ≤ now → pruneReqs 60 now A = pruneReqs 60 now R

lemma prune_prune (R : List Int) (t now : Int) (h : t ≤ now) :
    pruneReqs 60 now (pruneReqs 60 t R) = pruneReqs 60 now R := by
  unfold pruneReqs
  rw [List.filter_filter]
  apply List.filter_congr
  intro u _
  by_cases h1 : now - u < 60
  · have h2 : t - u < 60 := by omega
    simp [h1, h2]
  · simp [h1]

lemma runFlags_spec : ∀ (ts A : List Int) (rl : RateLimiter) (t0 : Int),
    rl.maxRequests = 100 → rl.timeWindow = 60 →
    WindowAgree A rl.requests t0 →
    (∀ t ∈ ts, t0 ≤ t) → List.Pairwise (· ≤ ·) ts →
    runFlags rl ts = specWindowFlags A ts := by
  intro ts
  induction ts with
  | nil => intros; rfl
  | cons t ts ih =>
    intro A rl t0 hmax hwin hagree hlb hpair
    obtain ⟨hhead, hpair'⟩ := List.pairwise_cons.mp hpair
    have ht0 : t0 ≤ t := hlb t (by simp)
    have hpr : pruneReqs 60 t A = pruneReqs 60 t rl.requests := hagree t ht0
    have hcan : can_make_request rl t =
        (decide ((pruneReqs 60 t rl.requests).length < 100),
          ⟨100, 60, pruneReqs 60 t rl.requests⟩) := by
      rw [can_make_request, hmax, hwin]
    by_cases hd : (A.filter (fun u => t - u < 60)).length < 100
    · have hdR : (pruneReqs 60 t rl.requests).length < 100 := by
        rw [← hpr]
        exact hd
      have hstep : rateLimitStep rl t =
          (true, ⟨100, 60, pruneReqs 60 t rl.requests ++ [t]⟩) := by
        rw [rateLimitStep, hcan]
        simp [hdR, record_request]
      have hagree' : WindowAgree (A ++ [t]) (pruneReqs 60 t rl.requests ++ [t]) t := by
        intro now hnow
        rw [show pruneReqs 60 now (A ++ [t])
            = pruneReqs 60 now A ++ pruneReqs 60 now [t] from List.filter_append _ _]
        rw [show pruneReqs 60 now (pruneReqs 60 t rl.requests ++ [t])
            = pruneReqs 60 now (pruneReqs 60 t rl.requests) ++ pruneReqs 60 now [t] from
          List.filter_append _ _]
        rw [prune_prune rl.requests t now hnow, hagree now (le_trans ht0 hnow)]
      rw [runFlags, hstep, specWindowFlags, if_pos hd]
      exact congrArg (List.cons true)
        (ih (A ++ [t]) ⟨100, 60, pruneReqs 60 t rl.requests ++ [t]⟩ t rfl rfl
          hagree' hhead hpair')
    · have hdR : ¬ (pruneReqs 60 t rl.requests).length < 100 := by
        rw [← hpr]
        exact hd
      have hstep : rateLimitStep rl t =
          (false, ⟨100, 60, pruneReqs 60 t rl.requests⟩) := by
        rw [rateLimitStep, hcan]
        simp [hdR]
      have hagree' : WindowAgree A (pruneReqs 60 t rl.requests) t := by
        intro now hnow
        rw [prune_prune rl.requests t now hnow]
        exact hagree now (le_trans ht0 hnow)
      rw [runFlags, hstep, specWindowFlags, if_neg hd]
      exact congrArg (List.cons false)
        (ih A ⟨100, 60, pruneReqs 60 t rl.requests⟩ t rfl rfl hagree' hhead hpair')

set_option maxRecDepth 8000 in
/-- C6: for any chronologically ordered call sequence, the limiter rejects a
call exactly when 100 or more previously accepted requests fall within the
trailing 60-second window (the refinement `specWindowFlags` written from the
claim), and in the concrete recovery scenario — 100 calls at time 0, one at
59, one at 60 — the call at 59 is rejected while the call at 60 is accepted,
the oldest timestamp having just turned 60 seconds old. -/
theorem rate_limiter_window (ts : List Int) (hpair : List.Pairwise (· ≤ ·) ts) :
    runFlags initRateLimiter ts = specWindowFlags [] ts ∧
    runFlags initRateLimiter (List.replicate 100 0 ++ [59, 60]) =
      List.replicate 100 true ++ [false, true] := by
  constructor
  · cases ts with
    | nil => rfl
    | cons t ts' =>
      refine runFlags_spec (t :: ts') [] initRateLimiter t rfl rfl
        (fun now _ => rfl) ?_ hpair
      intro u hu
      rcases List.mem_cons.mp hu with rfl | hu'
      · exact le_refl u
      · exact (List.pairwise_cons.mp hpair).1 u hu'
  · decide

/-- Witness for C6: the concrete recovery run, obtained from the theorem at
a three-instant sorted sequence. -/
theorem rate_limiter_window_witness :
    runFlags initRateLimiter [0, 30, 60] = specWindowFlags [] [0, 30, 60] ∧
    runFlags initRateLimiter (List.replicate 100 0 ++ [59, 60]) =
      List.replicate 100 true ++ [false, true] :=
  rate_limiter_window [0, 30, 60] (by decide)

/-! ## C7/C10: `make_sync_request` retry logic -/

/-- What one HTTP attempt inside `make_sync_request` can produce: a decoded
body, an `httpx.TimeoutException`, an `httpx.HTTPStatusError` carrying the
response's status code and text, or any other exception. -/
inductive Outcome where
  | success (body : String)
  | timeout (msg : String)
  | httpStatus (code : Nat) (text : String)
  | other (msg : String)
deriving DecidableEq, Repr

/-- Outcomes the source retries on: timeouts, other exceptions, HTTP 429 and
HTTP 5xx. -/
def isRetryable : Outcome → Bool
  | .success _ => false
  | .timeout _ => true
  | .other _ => true
  | .httpStatus c _ => c == 429 || 500 ≤ c

/-- Whether an outcome is the rate-limited status 429. -/
def is429 : Outcome → Bool
  | .httpStatus c _ => c == 429
  | _ => false

/-- The backoff the source sleeps after a non-final failed attempt `k`
(0-based): `2 * (attempt + 1)` for 429, `1 * (attempt + 1)` otherwise. -/
def sleepFor : Outcome → Nat → Nat
  | .httpStatus c _, k => if c = 429 then 2 * (k + 1) else 1 * (k + 1)
  | _, k => 1 * (k + 1)

/-- The `for attempt in range(max_retries)` loop of `make_sync_request`:
`k` is the current attempt index, the second argument the remaining
iterations, and the accumulated sleep durations are returned alongside the
result.  Exhausting the loop reaches the trailing
`raise Exception("Request failed after ... attempts")`. -/
def msrGo (outcomes : Nat → Outcome) (maxRetries : Nat) :
    Nat → Nat → List Nat → Except String String × List Nat
  | _, 0, sleeps =>
    (.error ("Request failed after " ++ toString maxRetries ++ " attempts"), sleeps)
  | k, Nat.succ r, sleeps =>
    match outcomes k with
    | .success body => (.ok body, sleeps)
    | .timeout m =>
      if k + 1 = maxRetries then
        (.error ("Request timed out after " ++ toString maxRetries ++ " attempts: " ++ m),
          sleeps)
      else
        msrGo outcomes maxRetries (k + 1) r (sleeps ++ [1 * (k + 1)])
    | .httpStatus c text =>
      if c = 429 then
        if k + 1 = maxRetries then
          (.error ("Rate limited after " ++ toString maxRetries ++ " attempts"), sleeps)
        else
          msrGo outcomes maxRetries (k + 1) r (sleeps ++ [2 * (k + 1)])
      else if 500 ≤ c then
        if k + 1 = maxRetries then
          (.error ("Server error after " ++ toString maxRetries ++ " attempts: "
            ++ toString c), sleeps)
        else
          msrGo outcomes maxRetries (k + 1) r (sleeps ++ [1 * (k + 1)])
      else
        (.error ("Client error: " ++ toString c ++ " - " ++ text), sleeps)
    | .other m =>
      if k + 1 = maxRetries then
        (.error ("Request failed after " ++ toString maxRetries ++ " attempts: " ++ m),
          sleeps)
      else
        msrGo outcomes maxRetries (k + 1) r (sleeps ++ [1 * (k + 1)])

/-- `make_sync_request`'s retry loop from the first attempt (the source's
default ceiling is `max_retries = 3`). -/
def make_sync_request (outcomes : Nat → Outcome) (maxRetries : Nat) :
    Except String String × List Nat :=
  msrGo outcomes maxRetries 0 maxRetries []

/-- The message each exhaustion site raises, keyed by the final attempt's
outcome. -/
def exhaustMsg (maxRetries : Nat) : Outcome → String
  | .timeout m =>
    "Request timed out after " ++ toString maxRetries ++ " attempts: " ++ m
  | .httpStatus c _ =>
    if c = 429 then "Rate limited after " ++ toString maxRetries ++ " attempts"
    else "Server error after " ++ toString maxRetries ++ " attempts: " ++ toString c
  | .other m => "Request failed after " ++ toString maxRetries ++ " attempts: " ++ m
  | .success _ => ""

lemma msrGo_step (outcomes : Nat → Outcome) (maxRetries k r : Nat) (sleeps : List Nat)
    (hret : isRetryable (outcomes k)) (hlast : ¬ k + 1 = maxRetries) :
    msrGo outcomes maxRetries k (r + 1) sleeps
      = msrGo outcomes maxRetries (k + 1) r (sleeps ++ [sleepFor (outcomes k) k]) := by
  cases ho : outcomes k with
  | success b => simp [isRetryable, ho] at hret
  | timeout m => simp [msrGo, ho, hlast, sleepFor]
  | other m => simp [msrGo, ho, hlast, sleepFor]
  | httpStatus c t =>
    have hct : c = 429 ∨ 500 ≤ c := by
      rw [ho] at hret
      simpa [isRetryable] using hret
    by_cases h429 : c = 429
    · simp [msrGo, ho, h429, hlast, sleepFor]
    · have h5 : 500 ≤ c := hct.resolve_left h429
      simp [msrGo, ho, h429, h5, hlast, sleepFor]

lemma msrGo_upTo (outcomes : Nat → Outcome) (maxRetries : Nat) :
    ∀ k : Nat, k < maxRetries → (∀ j, j < k → isRetryable (outcomes j)) →
    make_sync_request outcomes maxRetries
      = msrGo outcomes maxRetries k (maxRetries - k)
          ((List.range k).map (fun j => sleepFor (outcomes j) j)) := by
  intro k
  induction k with
  | zero =>
    intro _ _
    simp [make_sync_request]
  | succ k ih =>
    intro h hret
    have hk : k < maxRetries := Nat.lt_of_succ_lt h
    rw [ih hk (fun j hj => hret j (Nat.lt_succ_of_lt hj))]
    have hsub : maxRetries - k = (maxRetries - (k + 1)) + 1 := by omega
    rw [hsub, msrGo_step outcomes maxRetries k (maxRetries - (k + 1)) _
      (hret k (Nat.lt_succ_self k)) (by omega)]
    rw [List.range_succ, List.map_append]
    rfl

/-- C7: `make_sync_request` with its fixed ceiling of 3 attempts (i) answers
a non-429 4xx (or any other non-retryable status below 500) on any attempt,
after any run of retryable failures, with an immediate client error carrying
the status code and body, sleeping only for the prior retries; (ii) when all
3 attempts fail retryably (timeout, 5xx, 429, or another exception) it
raises the error message of the final attempt's kind, each such message
naming the 3 attempts, after sleeping for the first two retries; (iii) the
per-retry backoff is `(attempt + 1)` scaled by 2 for 429 and by 1 otherwise,
so it grows with each attempt and is longer for 429. -/
theorem retry_policy :
    (∀ (outcomes : Nat → Outcome) (k c : Nat) (text : String),
      k < 3 → (∀ j, j < k → isRetryable (outcomes j)) →
      outcomes k = .httpStatus c text → 400 ≤ c → c < 500 → c ≠ 429 →
      make_sync_request outcomes 3 =
        (.error ("Client error: " ++ toString c ++ " - " ++ text),
          (List.range k).map (fun j => sleepFor (outcomes j) j)))
    ∧ (∀ outcomes : Nat → Outcome,
      (∀ j, j < 3 → isRetryable (outcomes j)) →
      make_sync_request outcomes 3 =
        (.error (exhaustMsg 3 (outcomes 2)),
          (List.range 2).map (fun j => sleepFor (outcomes j) j)))
    ∧ (∀ (o : Outcome) (j : Nat),
      sleepFor o j = (if is429 o then 2 else 1) * (j + 1)
      ∧ sleepFor o j < sleepFor o (j + 1)) := by
  refine ⟨?_, ?_, ?_⟩
  · intro outcomes k c text hk hret ho hc400 hc500 hc429
    rw [msrGo_upTo outcomes 3 k hk hret]
    have hsub : 3 - k = (3 - (k + 1)) + 1 := by omega
    have hc5 : ¬ 500 ≤ c := by omega
    rw [hsub]
    simp [msrGo, ho, hc429, hc5]
  · intro outcomes hret
    rw [msrGo_upTo outcomes 3 2 (by omega) (fun j hj => hret j (by omega))]
    have h2 := hret 2 (by omega)
    cases ho : outcomes 2 with
    | success b =>
      rw [ho] at h2
      simp [isRetryable] at h2
    | timeout m => simp [msrGo, ho, exhaustMsg]
    | other m => simp [msrGo, ho, exhaustMsg]
    | httpStatus c t =>
      have hct : c = 429 ∨ 500 ≤ c := by
        rw [ho] at h2
        simpa [isRetryable] using h2
      by_cases h429 : c = 429
      · simp [msrGo, ho, h429, exhaustMsg]
      · have h5 : 500 ≤ c := hct.resolve_left h429
        simp [msrGo, ho, h429, h5, exhaustMsg]
  · intro o j
    cases o with
    | httpStatus c t =>
      by_cases h429 : c = 429
      · refine ⟨by simp [sleepFor, is429, h429], ?_⟩
        simp only [sleepFor, if_pos h429]
        omega
      · refine ⟨by simp [sleepFor, is429, h429], ?_⟩
        simp only [sleepFor, if_neg h429]
        omega
    | success b => simp [sleepFor, is429]
    | timeout m => simp [sleepFor, is429]
    | other m => simp [sleepFor, is429]

/-- Witness for C7 at a concrete run: a timeout, then a 500, then a 404 —
the 404 surfaces immediately as a client error with the two prior backoffs
recorded. -/
theorem retry_policy_witness :
    make_sync_request
      (fun j => [Outcome.timeout "t", Outcome.httpStatus 500 "boom",
        Outcome.httpStatus 404 "not found"].getD j (Outcome.other "x")) 3 =
      (.error ("Client error: " ++ toString 404 ++ " - " ++ "not found"),
        (List.range 2).map (fun j =>
          sleepFor ([Outcome.timeout "t", Outcome.httpStatus 500 "boom",
            Outcome.httpStatus 404 "not found"].getD j (Outcome.other "x")) j)) := by
  have h := retry_policy.1
    (fun j => [Outcome.timeout "t", Outcome.httpStatus 500 "boom",
      Outcome.httpStatus 404 "not found"].getD j (Outcome.other "x"))
    2 404 "not found" (by omega)
    (by
      intro j hj
      interval_cases j <;> decide)
    rfl (by omega) (by omega) (by omega)
  exact h

/-! ### `make_sync_request` together with the rate limiter (C10) -/

/-- The whole of `make_sync_request`: the rate-limit gate runs first, one
timestamp is recorded on acceptance, then the retry loop runs; the final
limiter state is returned alongside the result and the sleeps. -/
def make_sync_request_full (rl : RateLimiter) (now : Int) (outcomes : Nat → Outcome)
    (maxRetries : Nat) : Except String String × List Nat × RateLimiter :=
  if (can_make_request rl now).1 then
    ((msrGo outcomes maxRetries 0 maxRetries []).1,
      (msrGo outcomes maxRetries 0 maxRetries []).2,
      record_request (can_make_request rl now).2 now)
  else
    (.error "Rate limit exceeded. Planning Center allows 100 requests per minute.",
      [], (can_make_request rl now).2)

/-- C10: an accepted `make_sync_request` call records exactly one timestamp
(the pruned list plus `now`), the recorded state never depends on the
attempt outcomes (so internal retries consume no extra budget), a rejected
call records nothing and performs no attempt, and once admitted the result
depends only on the outcomes — the window is never re-checked between
retries. -/
theorem single_rate_slot_per_request :
    (∀ (rl : RateLimiter) (now : Int) (outcomes : Nat → Outcome) (maxRetries : Nat),
      (can_make_request rl now).1 = true →
      (make_sync_request_full rl now outcomes maxRetries).2.2.requests
        = pruneReqs rl.timeWindow now rl.requests ++ [now])
    ∧ (∀ (rl : RateLimiter) (now : Int) (outcomes outcomes' : Nat → Outcome)
        (maxRetries : Nat),
      (make_sync_request_full rl now outcomes maxRetries).2.2
        = (make_sync_request_full rl now outcomes' maxRetries).2.2)
    ∧ (∀ (rl : RateLimiter) (now : Int) (outcomes : Nat → Outcome) (maxRetries : Nat),
      (can_make_request rl now).1 = false →
      (make_sync_request_full rl now outcomes maxRetries).2.2.requests
          = pruneReqs rl.timeWindow now rl.requests
        ∧ (make_sync_request_full rl now outcomes maxRetries).1
          = .error "Rate limit exceeded. Planning Center allows 100 requests per minute.")
    ∧ (∀ (rl rl' : RateLimiter) (now now' : Int) (outcomes : Nat → Outcome)
        (maxRetries : Nat),
      (can_make_request rl now).1 = true → (can_make_request rl' now').1 = true →
      (make_sync_request_full rl now outcomes maxRetries).1
        = (make_sync_request_full rl' now' outcomes maxRetries).1) := by
  refine ⟨?_, ?_, ?_, ?_⟩
  · intro rl now outcomes maxRetries h
    rw [make_sync_request_full, if_pos h]
    simp [record_request, can_make_request]
  · intro rl now outcomes outcomes' maxRetries
    by_cases h : (can_make_request rl now).1
    · rw [make_sync_request_full, if_pos h, make_sync_request_full, if_pos h]
    · rw [make_sync_request_full, if_neg (by simp [h]), make_sync_request_full,
        if_neg (by simp [h])]
  · intro rl now outcomes maxRetries h
    refine ⟨?_, ?_⟩ <;> rw [make_sync_request_full, if_neg (by simp [h])]
    rfl
  · intro rl rl' now now' outcomes maxRetries h h'
    rw [make_sync_request_full, if_pos h, make_sync_request_full, if_pos h']

/-- An `AttendanceType` included record named "EH 8:15am". -/
def demoType815 : Inc :=
  ⟨"AttendanceType", "at815", some "EH 8:15am", .missing, none, none⟩

/-- A headcount of 40 labelled "EH 8:15am". -/
def demoHc40 : Inc :=
  ⟨"Headcount", "h1", none, .num 40, some "at815", some "t815"⟩

/-- A competing headcount of 55 with the same "EH 8:15am" label. -/
def demoHc55 : Inc :=
  ⟨"Headcount", "h2", none, .num 55, some "at815", some "t815"⟩

/-- An `included` array holding two competing headcounts (40 and 55) for the
same named service. -/
def demoIncluded : List Inc := [demoType815, demoHc40, demoHc55]

/-- C1: whenever the attendance-type index builds successfully, the
named-service aggregation reports, for each label of `SERVICE_NAMES` in that
fixed order, the maximum total among the fetched headcounts whose resolved
attendance-type name equals the label (`specServiceMax`, which is 0 when no
headcount matches), and a grand total equal to the sum of those per-label
maxima. -/
theorem named_service_max_select (date : String) (pid : Option String)
    (ps : List (Option String)) (timesFetch : Option String → List Inc)
    (types : List (String × String))
    (h : buildAttendanceTypes (timesFetch pid) = .ok types) :
    get_total_attendance_details_for_date date true (pid :: ps) timesFetch =
      .ok date
        (SERVICE_NAMES.map (fun n =>
          (n, specServiceMax types
            ((timesFetch pid).filter (fun i => i.rtype = "Headcount")) n)))
        ((SERVICE_NAMES.map (fun n =>
          specServiceMax types
            ((timesFetch pid).filter (fun i => i.rtype = "Headcount")) n)).sum) := by
  simp only [get_total_attendance_details_for_date, Bool.not_true, Bool.false_eq_true,
    if_false, h]
  rw [counted_fold_eq_map, grand_fold_eq_sum]
  simp [maxForService_eq_spec]

/-- Witness for C1 at the concrete duplicate-row input: with two competing
headcounts of 40 and 55 under the label "EH 8:15am", the reported total for
that label is 55 (not 95), the services appear in the fixed label order, and
the grand total is the sum 55 of the per-label maxima. -/
theorem named_service_max_select_witness :
    get_total_attendance_details_for_date "2025-09-21" true [some "p1"]
        (fun _ => demoIncluded) =
      .ok "2025-09-21"
        [("EH 10:15am", 0), ("EH 12:15pm", 0), ("EH 8:15am", 55),
         ("EW 11:00am", 0), ("EW 9:00am", 0)] 55 := by
  have h := named_service_max_select "2025-09-21" (some "p1") []
    (fun _ => demoIncluded) [("at815", "EH 8:15am")] rfl
  rw [h]
  decide

end PlanningCenter
